import Mathlib

/-!
Verification of the `cadd` crate: bounds-checked integer conversions
(`Cfrom`/`SaturatingFrom`, src/convert_impls/num.rs), checked arithmetic
operations (src/ops_impls.rs), non-zero conversion (src/convert.rs),
slice-to-array conversion (src/convert_impls/array.rs) and the backtrace
environment flag (src/tests.rs).

Machine integers are embedded as `Int` together with an `IntKind` record
describing signedness and bit width; a Rust `as`-cast is `castWrap`.
The `target_pointer_width = "64"` configuration is modelled, so `usize`
and `isize` are 64-bit kinds.
-/

namespace Cadd

/-- Description of a Rust fixed-width integer type: signedness, bit width and
the string returned by `core::any::type_name`. -/
structure IntKind where
  signed : Bool
  bits : Nat
  name : String
deriving DecidableEq, Repr

/-- Smallest value representable in the kind (`Self::MIN`). -/
def IntKind.minVal (k : IntKind) : Int :=
  if k.signed then -(2 ^ (k.bits - 1)) else 0

/-- Largest value representable in the kind (`Self::MAX`). -/
def IntKind.maxVal (k : IntKind) : Int :=
  if k.signed then 2 ^ (k.bits - 1) - 1 else 2 ^ k.bits - 1

/-- `v` is representable in kind `k`. -/
def IntKind.represents (k : IntKind) (v : Int) : Prop :=
  k.minVal ≤ v ∧ v ≤ k.maxVal

instance (k : IntKind) (v : Int) : Decidable (k.represents v) :=
  inferInstanceAs (Decidable (k.minVal ≤ v ∧ v ≤ k.maxVal))

/-- Rust `as`-cast into kind `k`: two's-complement wrapping. -/
def castWrap (k : IntKind) (v : Int) : Int :=
  let m := v % (2 ^ k.bits : Int)
  if k.signed = true ∧ 2 ^ (k.bits - 1) ≤ m then m - 2 ^ k.bits else m

def u8 : IntKind := ⟨false, 8, "u8"⟩
def u16 : IntKind := ⟨false, 16, "u16"⟩
def u32 : IntKind := ⟨false, 32, "u32"⟩
def u64 : IntKind := ⟨false, 64, "u64"⟩
def u128 : IntKind := ⟨false, 128, "u128"⟩
def usize : IntKind := ⟨false, 64, "usize"⟩
def i8 : IntKind := ⟨true, 8, "i8"⟩
def i16 : IntKind := ⟨true, 16, "i16"⟩
def i32 : IntKind := ⟨true, 32, "i32"⟩
def i64 : IntKind := ⟨true, 64, "i64"⟩
def i128 : IntKind := ⟨true, 128, "i128"⟩
def isize : IntKind := ⟨true, 64, "isize"⟩

/-- The twelve primitive integer kinds of the crate. -/
def numericKinds : List IntKind :=
  [u8, i8, u16, i16, u32, i32, u64, i64, u128, i128, usize, isize]

/-- The unsigned kinds. -/
def unsignedKinds : List IntKind := [u8, u16, u32, u64, u128, usize]

/-- Every kind with a positive bit width has a nonempty range. -/
theorem minVal_le_maxVal (k : IntKind) : k.minVal ≤ k.maxVal := by
  have hpow : (0 : Int) < 2 ^ (k.bits - 1) := pow_pos (by norm_num) _
  have hpow2 : (0 : Int) < 2 ^ k.bits := pow_pos (by norm_num) _
  simp only [IntKind.minVal, IntKind.maxVal]
  split_ifs <;> omega

/-- A cast into a kind is the identity on representable values. -/
theorem castWrap_eq_self (k : IntKind) (hb : 0 < k.bits) (v : Int)
    (h1 : k.minVal ≤ v) (h2 : v ≤ k.maxVal) : castWrap k v = v := by
  have hsplit : (2 : Int) ^ k.bits = 2 ^ (k.bits - 1) * 2 := by
    conv_lhs => rw [show k.bits = (k.bits - 1) + 1 from (Nat.succ_pred_eq_of_pos hb).symm]
    rw [pow_succ]
  have hpow : (0 : Int) < 2 ^ (k.bits - 1) := pow_pos (by norm_num) _
  simp only [IntKind.minVal, IntKind.maxVal] at h1 h2
  unfold castWrap
  by_cases hs : k.signed = true
  · simp only [hs, if_true] at h1 h2
    simp only [hs, true_and]
    by_cases hv : 0 ≤ v
    · have hm : v % (2 ^ k.bits : Int) = v := Int.emod_eq_of_lt hv (by omega)
      rw [hm]
      rw [if_neg (by omega)]
    · have hm : v % (2 ^ k.bits : Int) = v + 2 ^ k.bits := by
        have hrw : (v + 2 ^ k.bits) % (2 ^ k.bits : Int) = v % (2 ^ k.bits : Int) := by
          have h0 := Int.add_mul_emod_self_left (a := v) (b := (2 : Int) ^ k.bits) (c := 1)
          rw [mul_one] at h0
          exact h0
        rw [← hrw]
        exact Int.emod_eq_of_lt (by omega) (by omega)
      rw [hm]
      rw [if_pos (by omega)]
      omega
  · simp only [hs, if_false] at h1 h2
    have hm : v % (2 ^ k.bits : Int) = v := Int.emod_eq_of_lt h1 (by omega)
    simp only [hs, false_and, if_false]
    exact hm

/-- Which of the four `impl_cfrom_*` macros generated the conversion for a
(source, target) pair (src/convert_impls/num.rs). -/
inductive BoundKind where
  | unbounded
  | lowerBounded
  | upperBounded
  | bothBounded
deriving DecidableEq, Repr

/-- The error message built by every bounded `impl_cfrom_*` macro:
`format!("cannot convert value {:?} from {} to {}: value is out of bounds", u, type_name::<S>(), type_name::<T>())`. -/
def convErrMsg (v : Int) (s t : IntKind) : String :=
  "cannot convert value " ++ toString v ++ " from " ++ s.name ++ " to " ++ t.name ++
    ": value is out of bounds"

/-- `Cfrom::cfrom` as generated by the four macros in src/convert_impls/num.rs:
* `impl_cfrom_unbounded`: `Ok(u as Self)`;
* `impl_cfrom_lower_bounded`: `if u >= 0 { Ok(u as Self) } else { Err(...) }`;
* `impl_cfrom_upper_bounded`: `if u > (Self::MAX as $source) { Err(...) } else { Ok(u as Self) }`;
* `impl_cfrom_both_bounded`: `if u < (Self::MIN as $source) || u > (Self::MAX as $source) { Err(...) } else { Ok(u as Self) }`. -/
def cfrom : BoundKind → IntKind → IntKind → Int → Except String Int
  | .unbounded, _s, t, u => .ok (castWrap t u)
  | .lowerBounded, s, t, u =>
      if 0 ≤ u then .ok (castWrap t u) else .error (convErrMsg u s t)
  | .upperBounded, s, t, u =>
      if castWrap s t.maxVal < u then .error (convErrMsg u s t) else .ok (castWrap t u)
  | .bothBounded, s, t, u =>
      if u < castWrap s t.minVal ∨ castWrap s t.maxVal < u then .error (convErrMsg u s t)
      else .ok (castWrap t u)

/-- `SaturatingFrom::saturating_from` as generated by the same four macros. -/
def saturating_from : BoundKind → IntKind → IntKind → Int → Int
  | .unbounded, _s, t, u => castWrap t u
  | .lowerBounded, _s, t, u => if 0 ≤ u then castWrap t u else 0
  | .upperBounded, s, t, u => if castWrap s t.maxVal < u then t.maxVal else castWrap t u
  | .bothBounded, s, t, u =>
      if u < castWrap s t.minVal then t.minVal
      else if castWrap s t.maxVal < u then t.maxVal
      else castWrap t u

/-- The blanket impl `Cinto` in src/convert.rs delegates to `Cfrom::cfrom`. -/
def cinto (strat : BoundKind) (s t : IntKind) (v : Int) : Except String Int :=
  cfrom strat s t v

/-- `IntoType::cinto_type` (src/convert.rs) forwards to `Cinto::cinto`. -/
def cinto_type (strat : BoundKind) (s t : IntKind) (v : Int) : Except String Int :=
  cinto strat s t v

/-- One macro invocation target: the macro used, the source kind and the
target kind. -/
structure CfromImpl where
  strat : BoundKind
  src : IntKind
  tgt : IntKind
deriving DecidableEq, Repr

/-- Table part 1: unsigned -> unsigned and signed -> signed impls. -/
def cfromPairsA : List CfromImpl := [
  -- unsigned integer -> unsigned integer
  ⟨.upperBounded, u16, u8⟩,
  ⟨.upperBounded, u32, u8⟩, ⟨.upperBounded, u32, u16⟩,
  ⟨.upperBounded, u64, u8⟩, ⟨.upperBounded, u64, u16⟩, ⟨.upperBounded, u64, u32⟩,
  ⟨.upperBounded, u128, u8⟩, ⟨.upperBounded, u128, u16⟩, ⟨.upperBounded, u128, u32⟩,
  ⟨.upperBounded, u128, u64⟩,
  -- signed integer -> signed integer
  ⟨.bothBounded, i16, i8⟩,
  ⟨.bothBounded, i32, i8⟩, ⟨.bothBounded, i32, i16⟩,
  ⟨.bothBounded, i64, i8⟩, ⟨.bothBounded, i64, i16⟩, ⟨.bothBounded, i64, i32⟩,
  ⟨.bothBounded, i128, i8⟩, ⟨.bothBounded, i128, i16⟩, ⟨.bothBounded, i128, i32⟩,
  ⟨.bothBounded, i128, i64⟩]

/-- Table part 2: unsigned -> signed impls. -/
def cfromPairsB : List CfromImpl := [
  ⟨.upperBounded, u8, i8⟩,
  ⟨.upperBounded, u16, i8⟩, ⟨.upperBounded, u16, i16⟩,
  ⟨.upperBounded, u32, i8⟩, ⟨.upperBounded, u32, i16⟩, ⟨.upperBounded, u32, i32⟩,
  ⟨.upperBounded, u64, i8⟩, ⟨.upperBounded, u64, i16⟩, ⟨.upperBounded, u64, i32⟩,
  ⟨.upperBounded, u64, i64⟩,
  ⟨.upperBounded, u128, i8⟩, ⟨.upperBounded, u128, i16⟩, ⟨.upperBounded, u128, i32⟩,
  ⟨.upperBounded, u128, i64⟩, ⟨.upperBounded, u128, i128⟩]

/-- Table part 3: signed -> unsigned impls, plus `usize <-> isize`. -/
def cfromPairsC : List CfromImpl := [
  ⟨.lowerBounded, i8, u8⟩, ⟨.lowerBounded, i8, u16⟩, ⟨.lowerBounded, i8, u32⟩,
  ⟨.lowerBounded, i8, u64⟩, ⟨.lowerBounded, i8, u128⟩,
  ⟨.bothBounded, i16, u8⟩,
  ⟨.lowerBounded, i16, u16⟩, ⟨.lowerBounded, i16, u32⟩, ⟨.lowerBounded, i16, u64⟩,
  ⟨.lowerBounded, i16, u128⟩,
  ⟨.bothBounded, i32, u8⟩, ⟨.bothBounded, i32, u16⟩,
  ⟨.lowerBounded, i32, u32⟩, ⟨.lowerBounded, i32, u64⟩, ⟨.lowerBounded, i32, u128⟩,
  ⟨.bothBounded, i64, u8⟩, ⟨.bothBounded, i64, u16⟩, ⟨.bothBounded, i64, u32⟩,
  ⟨.lowerBounded, i64, u64⟩, ⟨.lowerBounded, i64, u128⟩,
  ⟨.bothBounded, i128, u8⟩, ⟨.bothBounded, i128, u16⟩, ⟨.bothBounded, i128, u32⟩,
  ⟨.bothBounded, i128, u64⟩,
  ⟨.lowerBounded, i128, u128⟩,
  ⟨.upperBounded, usize, isize⟩,
  ⟨.lowerBounded, isize, usize⟩]

/-- Table part 4: the `target_pointer_width = "64"` module, direct impls. -/
def cfromPairsD : List CfromImpl := [
  ⟨.upperBounded, usize, u8⟩, ⟨.upperBounded, usize, u16⟩, ⟨.upperBounded, usize, u32⟩,
  ⟨.unbounded, usize, u64⟩, ⟨.unbounded, usize, u128⟩,
  ⟨.upperBounded, usize, i8⟩, ⟨.upperBounded, usize, i16⟩, ⟨.upperBounded, usize, i32⟩,
  ⟨.upperBounded, usize, i64⟩,
  ⟨.unbounded, usize, i128⟩,
  ⟨.bothBounded, isize, u8⟩, ⟨.bothBounded, isize, u16⟩, ⟨.bothBounded, isize, u32⟩,
  ⟨.lowerBounded, isize, u64⟩, ⟨.lowerBounded, isize, u128⟩,
  ⟨.bothBounded, isize, i8⟩, ⟨.bothBounded, isize, i16⟩, ⟨.bothBounded, isize, i32⟩,
  ⟨.unbounded, isize, i64⟩, ⟨.unbounded, isize, i128⟩]

/-- Table part 5: the `rev!` invocations of the 64-bit module. -/
def cfromPairsE : List CfromImpl := [
  ⟨.unbounded, u32, usize⟩, ⟨.unbounded, u64, usize⟩,
  ⟨.upperBounded, u128, usize⟩,
  ⟨.lowerBounded, i8, usize⟩, ⟨.lowerBounded, i16, usize⟩, ⟨.lowerBounded, i32, usize⟩,
  ⟨.lowerBounded, i64, usize⟩,
  ⟨.bothBounded, i128, usize⟩,
  ⟨.unbounded, u16, isize⟩, ⟨.unbounded, u32, isize⟩,
  ⟨.upperBounded, u64, isize⟩, ⟨.upperBounded, u128, isize⟩,
  ⟨.unbounded, i32, isize⟩, ⟨.unbounded, i64, isize⟩,
  ⟨.bothBounded, i128, isize⟩]

/-- All `Cfrom`/`SaturatingFrom` impls generated in src/convert_impls/num.rs
for primitive integer pairs, with `target_pointer_width = "64"`. -/
def cfromPairs : List CfromImpl :=
  cfromPairsA ++ cfromPairsB ++ cfromPairsC ++ cfromPairsD ++ cfromPairsE

/-- Relationship between the bounds of source and target kind that each macro
relies on, as chosen by the instantiation table. -/
def stratCond : BoundKind → IntKind → IntKind → Prop
  | .unbounded, s, t => t.minVal ≤ s.minVal ∧ s.maxVal ≤ t.maxVal
  | .lowerBounded, s, t => t.minVal = 0 ∧ s.maxVal ≤ t.maxVal
  | .upperBounded, s, t => t.minVal ≤ s.minVal ∧ s.minVal ≤ t.maxVal ∧ t.maxVal ≤ s.maxVal
  | .bothBounded, s, t => s.minVal ≤ t.minVal ∧ t.minVal ≤ t.maxVal ∧ t.maxVal ≤ s.maxVal

instance (b : BoundKind) (s t : IntKind) : Decidable (stratCond b s t) := by
  cases b <;> simp only [stratCond] <;> infer_instance

/-- Well-formedness of one table entry. -/
def stratOk (e : CfromImpl) : Prop :=
  0 < e.src.bits ∧ 0 < e.tgt.bits ∧ stratCond e.strat e.src e.tgt

instance (e : CfromImpl) : Decidable (stratOk e) :=
  inferInstanceAs (Decidable (_ ∧ _ ∧ _))

/-- Every entry of the instantiation table is well-formed. -/
theorem stratOk_all : ∀ e ∈ cfromPairs, stratOk e := by decide

/-- Master lemma: on a well-formed entry, `cfrom` succeeds with the unchanged
value exactly on values representable in the target kind, and otherwise fails
with the out-of-bounds message. -/
theorem cfrom_spec (strat : BoundKind) (s t : IntKind) (hsb : 0 < s.bits)
    (htb : 0 < t.bits) (hcond : stratCond strat s t) (v : Int)
    (hv : s.represents v) :
    cfrom strat s t v =
      if t.represents v then .ok v else .error (convErrMsg v s t) := by
  obtain ⟨hv1, hv2⟩ := hv
  cases strat
  · -- unbounded
    obtain ⟨h1, h2⟩ := hcond
    have hrep : t.represents v := ⟨le_trans h1 hv1, le_trans hv2 h2⟩
    simp only [cfrom, if_pos hrep]
    rw [castWrap_eq_self t htb v hrep.1 hrep.2]
  · -- lowerBounded
    obtain ⟨h1, h2⟩ := hcond
    by_cases hv0 : 0 ≤ v
    · have hrep : t.represents v := ⟨by omega, le_trans hv2 h2⟩
      simp only [cfrom, if_pos hv0, if_pos hrep]
      rw [castWrap_eq_self t htb v hrep.1 hrep.2]
    · have hrep : ¬ t.represents v := fun h => hv0 (by have := h.1; omega)
      simp only [cfrom, if_neg hv0, if_neg hrep]
  · -- upperBounded
    obtain ⟨h1, h2, h3⟩ := hcond
    have hcast : castWrap s t.maxVal = t.maxVal := castWrap_eq_self s hsb t.maxVal h2 h3
    by_cases hgt : t.maxVal < v
    · have hrep : ¬ t.represents v := fun h => by have := h.2; omega
      simp only [cfrom, hcast, if_pos hgt, if_neg hrep]
    · have hrep : t.represents v := ⟨le_trans h1 hv1, by omega⟩
      simp only [cfrom, hcast, if_neg hgt, if_pos hrep]
      rw [castWrap_eq_self t htb v hrep.1 hrep.2]
  · -- bothBounded
    obtain ⟨h1, h2, h3⟩ := hcond
    have hcmin : castWrap s t.minVal = t.minVal :=
      castWrap_eq_self s hsb t.minVal h1 (le_trans h2 h3)
    have hcmax : castWrap s t.maxVal = t.maxVal :=
      castWrap_eq_self s hsb t.maxVal (le_trans h1 h2) h3
    by_cases hout : v < t.minVal ∨ t.maxVal < v
    · have hrep : ¬ t.represents v := fun h => by
        obtain ⟨ha, hb⟩ := h
        omega
      simp only [cfrom, hcmin, hcmax, if_pos hout, if_neg hrep]
    · have hrep : t.represents v := ⟨by omega, by omega⟩
      simp only [cfrom, hcmin, hcmax, if_neg hout, if_pos hrep]
      rw [castWrap_eq_self t htb v hrep.1 hrep.2]

/-- Master lemma: on a well-formed entry, `saturating_from` clamps to the
target kind's minimum below the range, to its maximum above the range, and is
the identity inside the range. -/
theorem saturating_spec (strat : BoundKind) (s t : IntKind) (hsb : 0 < s.bits)
    (htb : 0 < t.bits) (hcond : stratCond strat s t) (v : Int)
    (hv : s.represents v) :
    saturating_from strat s t v =
      if v < t.minVal then t.minVal else if t.maxVal < v then t.maxVal else v := by
  obtain ⟨hv1, hv2⟩ := hv
  cases strat
  · -- unbounded
    obtain ⟨h1, h2⟩ := hcond
    simp only [saturating_from]
    split_ifs <;> first
      | omega
      | rw [castWrap_eq_self t htb v (by omega) (by omega)]
  · -- lowerBounded
    obtain ⟨h1, h2⟩ := hcond
    simp only [saturating_from]
    split_ifs <;> first
      | omega
      | rw [castWrap_eq_self t htb v (by omega) (by omega)]
  · -- upperBounded
    obtain ⟨h1, h2, h3⟩ := hcond
    have hcast : castWrap s t.maxVal = t.maxVal := castWrap_eq_self s hsb t.maxVal h2 h3
    simp only [saturating_from, hcast]
    split_ifs <;> first
      | omega
      | rw [castWrap_eq_self t htb v (by omega) (by omega)]
  · -- bothBounded
    obtain ⟨h1, h2, h3⟩ := hcond
    have hcmin : castWrap s t.minVal = t.minVal :=
      castWrap_eq_self s hsb t.minVal h1 (le_trans h2 h3)
    have hcmax : castWrap s t.maxVal = t.maxVal :=
      castWrap_eq_self s hsb t.maxVal (le_trans h1 h2) h3
    simp only [saturating_from, hcmin, hcmax]
    split_ifs <;> first
      | omega
      | rw [castWrap_eq_self t htb v (by omega) (by omega)]

/-- Claim C1: for every pair of integer types with an implemented `Cfrom`
impl and every source value `v`, `cfrom` succeeds if and only if `v` lies in
the target's representable range, and on success the returned value equals
`v`. -/
theorem cfrom_in_range_iff :
    ∀ e ∈ cfromPairs, ∀ v : Int, e.src.represents v →
      cfrom e.strat e.src e.tgt v =
        if e.tgt.represents v then .ok v else .error (convErrMsg v e.src e.tgt) := by
  intro e he v hv
  obtain ⟨hsb, htb, hcond⟩ := stratOk_all e he
  exact cfrom_spec e.strat e.src e.tgt hsb htb hcond v hv

/-- Witness for C1 at `u8::cfrom(300u16)` and `u8::cfrom(7u16)`. -/
theorem cfrom_in_range_iff_witness :
    (cfrom BoundKind.upperBounded u16 u8 300 =
      if u8.represents 300 then .ok 300 else .error (convErrMsg 300 u16 u8)) ∧
    (cfrom BoundKind.upperBounded u16 u8 7 =
      if u8.represents 7 then .ok 7 else .error (convErrMsg 7 u16 u8)) :=
  ⟨cfrom_in_range_iff ⟨.upperBounded, u16, u8⟩ (by decide) 300 (by decide),
   cfrom_in_range_iff ⟨.upperBounded, u16, u8⟩ (by decide) 7 (by decide)⟩

/-- Claim C2: for every implemented pair, the saturating conversion equals the
checked conversion's value whenever the checked conversion succeeds, and when
it fails it returns the target's minimum (below range) or maximum (above
range): the two families agree on which values are in-bounds. -/
theorem saturating_agrees_with_checked :
    ∀ e ∈ cfromPairs, ∀ v : Int, e.src.represents v →
      (∀ w, cfrom e.strat e.src e.tgt v = .ok w →
        saturating_from e.strat e.src e.tgt v = w) ∧
      ((∃ m, cfrom e.strat e.src e.tgt v = .error m) →
        (v < e.tgt.minVal ∧ saturating_from e.strat e.src e.tgt v = e.tgt.minVal) ∨
        (e.tgt.maxVal < v ∧ saturating_from e.strat e.src e.tgt v = e.tgt.maxVal)) := by
  intro e he v hv
  obtain ⟨hsb, htb, hcond⟩ := stratOk_all e he
  have hc := cfrom_spec e.strat e.src e.tgt hsb htb hcond v hv
  have hs := saturating_spec e.strat e.src e.tgt hsb htb hcond v hv
  by_cases hrep : e.tgt.represents v
  · rw [if_pos hrep] at hc
    obtain ⟨hr1, hr2⟩ := hrep
    refine ⟨fun w hw => ?_, fun hm => ?_⟩
    · rw [hc] at hw
      have hwv : v = w := Except.ok.inj hw
      rw [hs, if_neg (by omega), if_neg (by omega), hwv]
    · obtain ⟨m, hm⟩ := hm
      rw [hc] at hm
      exact Except.noConfusion hm
  · rw [if_neg hrep] at hc
    refine ⟨fun w hw => ?_, fun _ => ?_⟩
    · rw [hc] at hw
      exact Except.noConfusion hw
    · have hmm := minVal_le_maxVal e.tgt
      have hout : v < e.tgt.minVal ∨ e.tgt.maxVal < v := by
        by_contra hq
        push_neg at hq
        exact hrep ⟨by omega, by omega⟩
      rcases hout with h | h
      · exact Or.inl ⟨h, by rw [hs, if_pos h]⟩
      · refine Or.inr ⟨h, ?_⟩
        rw [hs, if_neg (by omega), if_pos h]

/-- Witness for C2 at `u8::saturating_from(300u16)` (above range) and
`u8::cfrom(7u16)` (in range). -/
theorem saturating_agrees_with_checked_witness :
    ((300 : Int) < u8.minVal ∧ saturating_from BoundKind.upperBounded u16 u8 300 = u8.minVal) ∨
    (u8.maxVal < 300 ∧ saturating_from BoundKind.upperBounded u16 u8 300 = u8.maxVal) :=
  (saturating_agrees_with_checked ⟨.upperBounded, u16, u8⟩ (by decide) 300 (by decide)).2
    ⟨convErrMsg 300 u16 u8, rfl⟩

/-- Claim C5: every failing checked numeric conversion reports exactly
`cannot convert value <v> from <src> to <tgt>: value is out of bounds`; in
particular `(-5i32).cinto_type::<u32>()` fails with exactly that message. -/
theorem cfrom_error_message_exact :
    (∀ e ∈ cfromPairs, ∀ v : Int, ∀ m : String,
      cfrom e.strat e.src e.tgt v = .error m →
      m = "cannot convert value " ++ toString v ++ " from " ++ e.src.name ++ " to " ++
        e.tgt.name ++ ": value is out of bounds") ∧
    cinto_type .lowerBounded i32 u32 (-5) =
      .error "cannot convert value -5 from i32 to u32: value is out of bounds" := by
  constructor
  · intro e _he v m hm
    have hmsg : m = convErrMsg v e.src e.tgt := by
      rcases e with ⟨strat, s, t⟩
      cases strat <;> simp only [cfrom] at hm
      · exact Except.noConfusion hm
      · by_cases h : (0 : Int) ≤ v
        · rw [if_pos h] at hm
          exact Except.noConfusion hm
        · rw [if_neg h] at hm
          exact (Except.error.inj hm).symm
      · by_cases h : castWrap s t.maxVal < v
        · rw [if_pos h] at hm
          exact (Except.error.inj hm).symm
        · rw [if_neg h] at hm
          exact Except.noConfusion hm
      · by_cases h : v < castWrap s t.minVal ∨ castWrap s t.maxVal < v
        · rw [if_pos h] at hm
          exact (Except.error.inj hm).symm
        · rw [if_neg h] at hm
          exact Except.noConfusion hm
    exact hmsg
  · rfl

/-- Witness for C5 at `u32::cfrom(-5i32)`. -/
theorem cfrom_error_message_exact_witness :
    "cannot convert value -5 from i32 to u32: value is out of bounds" =
      "cannot convert value " ++ toString (-5 : Int) ++ " from " ++ IntKind.name i32 ++
        " to " ++ IntKind.name u32 ++ ": value is out of bounds" :=
  cfrom_error_message_exact.1 ⟨.lowerBounded, i32, u32⟩ (by decide) (-5)
    "cannot convert value -5 from i32 to u32: value is out of bounds" rfl

/-- Claim C6: for every pair of kinds whose checked conversions are
implemented in both directions and every value representable in both,
converting there and back returns the original value. -/
theorem cfrom_round_trip :
    ∀ e1 ∈ cfromPairs, ∀ e2 ∈ cfromPairs,
      e1.tgt = e2.src → e2.tgt = e1.src →
      ∀ v : Int, e1.src.represents v → e1.tgt.represents v →
      (cfrom e1.strat e1.src e1.tgt v).bind (cfrom e2.strat e2.src e2.tgt) = .ok v := by
  intro e1 he1 e2 he2 hst hts v hv1 hv2
  obtain ⟨hsb1, htb1, hcond1⟩ := stratOk_all e1 he1
  obtain ⟨hsb2, htb2, hcond2⟩ := stratOk_all e2 he2
  have hc1 := cfrom_spec e1.strat e1.src e1.tgt hsb1 htb1 hcond1 v hv1
  rw [if_pos hv2] at hc1
  rw [hc1]
  have hv2' : e2.src.represents v := hst ▸ hv2
  have hc2 := cfrom_spec e2.strat e2.src e2.tgt hsb2 htb2 hcond2 v hv2'
  have hrep2 : e2.tgt.represents v := hts.symm ▸ hv1
  rw [if_pos hrep2] at hc2
  exact hc2

/-- Witness for C6 on the mutual pair `usize -> u32` (upper bounded) and
`u32 -> usize` (unbounded) at value 7. -/
theorem cfrom_round_trip_witness :
    (cfrom BoundKind.upperBounded usize u32 7).bind (cfrom BoundKind.unbounded u32 usize) =
      .ok 7 :=
  cfrom_round_trip ⟨.upperBounded, usize, u32⟩ (by decide) ⟨.unbounded, u32, usize⟩
    (by decide) rfl rfl 7 (by decide) (by decide)

/-! ## Checked arithmetic framework (src/ops_impls.rs) -/

/-- Rust's `Option::ok_or_else` specialised to the crate's use: wrap the
partial primitive's result, building the error message on `None`. -/
def ok_or_else : Option Int → String → Except String Int
  | some v, _ => .ok v
  | none, e => .error e

/-- The std partial primitive `checked_add` for kind `k`: `None` on overflow. -/
def checked_add (k : IntKind) (a b : Int) : Option Int :=
  if k.minVal ≤ a + b ∧ a + b ≤ k.maxVal then some (a + b) else none

/-- `Cadd::cadd` for same-type operands:
`impl_binary_ops!(Cadd, cadd, checked_add, msg="overflow: {:?} + {:?}" ...)`. -/
def cadd (k : IntKind) (a b : Int) : Except String Int :=
  ok_or_else (checked_add k a b) ("overflow: " ++ toString a ++ " + " ++ toString b)

/-- The std partial primitive `checked_sub` for kind `k`: `None` on overflow. -/
def checked_sub (k : IntKind) (a b : Int) : Option Int :=
  if k.minVal ≤ a - b ∧ a - b ≤ k.maxVal then some (a - b) else none

/-- `Csub::csub` for same-type operands:
`impl_binary_ops!(Csub, csub, checked_sub, msg="overflow: {:?} - {:?}" ...)`. -/
def csub (k : IntKind) (a b : Int) : Except String Int :=
  ok_or_else (checked_sub k a b) ("overflow: " ++ toString a ++ " - " ++ toString b)

/-- The std partial primitive `checked_sub_unsigned` on a signed kind `k`
(second operand unsigned): `None` on overflow. -/
def checked_sub_unsigned (k : IntKind) (a b : Int) : Option Int :=
  if k.minVal ≤ a - b ∧ a - b ≤ k.maxVal then some (a - b) else none

/-- `Csub::csub` for the signed-minus-unsigned impls:
`impl_binary_ops!(Csub, csub, checked_sub_unsigned, msg="overflow: {} + {}" ...)`
(src/ops_impls.rs line 147: the source's message template for this
subtraction spells a `+` between the operands). -/
def csub_unsigned (k : IntKind) (a b : Int) : Except String Int :=
  ok_or_else (checked_sub_unsigned k a b)
    ("overflow: " ++ toString a ++ " + " ++ toString b)

/-- The std partial primitive `checked_div`: `None` iff the divisor is zero
or, on a signed kind, the division is `MIN / -1`. The quotient truncates
toward zero. -/
def checked_div (k : IntKind) (a b : Int) : Option Int :=
  if b = 0 then none
  else if k.signed = true ∧ a = k.minVal ∧ b = -1 then none
  else some (Int.tdiv a b)

/-- The error closure of `impl_binary_ops!(Cdiv, cdiv, checked_div, err=...)`:
division-by-zero message iff the second operand is zero, overflow otherwise. -/
def cdivErr (a b : Int) : String :=
  if b = 0 then "division by zero: " ++ toString a ++ " / " ++ toString b
  else "overflow: " ++ toString a ++ " / " ++ toString b

/-- `Cdiv::cdiv`. -/
def cdiv (k : IntKind) (a b : Int) : Except String Int :=
  ok_or_else (checked_div k a b) (cdivErr a b)

/-- The std partial primitive `checked_rem`: `None` iff the divisor is zero
or, on a signed kind, the operands are `MIN % -1`. -/
def checked_rem (k : IntKind) (a b : Int) : Option Int :=
  if b = 0 then none
  else if k.signed = true ∧ a = k.minVal ∧ b = -1 then none
  else some (Int.tmod a b)

/-- The error closure of `impl_binary_ops!(Crem, crem, checked_rem, err=...)`. -/
def cremErr (a b : Int) : String :=
  if b = 0 then "division by zero: " ++ toString a ++ " % " ++ toString b
  else "overflow: " ++ toString a ++ " % " ++ toString b

/-- `Crem::crem`. -/
def crem (k : IntKind) (a b : Int) : Except String Int :=
  ok_or_else (checked_rem k a b) (cremErr a b)

/-- Claim C3 (code bug in the source): the `u8` addition facts hold and the
same-type subtraction message uses `-`, but the signed-minus-unsigned `csub`
impls build their overflow message with a `+` between the operands
(template `"overflow: {} + {}"` at src/ops_impls.rs line 147), so
`csub(-100i8, 100u8)` reports `overflow: -100 + 100` instead of the claimed
`overflow: -100 - 100`. -/
theorem csub_unsigned_message_bug :
    cadd u8 255 1 = .error "overflow: 255 + 1" ∧
    cadd u8 2 3 = .ok 5 ∧
    csub u8 100 200 = .error "overflow: 100 - 200" ∧
    csub_unsigned i8 (-100) 100 = .error "overflow: -100 + 100" ∧
    "overflow: -100 + 100" ≠ "overflow: -100 - 100" :=
  ⟨rfl, rfl, rfl, rfl, by decide⟩

/-- Claim C4: for every kind `cdiv(a, 0)` reports the division-by-zero
message; for signed kinds `cdiv(MIN, -1)` reports the overflow message; the
message form depends solely on whether the second operand is zero; and the
two message forms are always distinct strings. -/
theorem cdiv_message_classification :
    ∀ k ∈ numericKinds,
      (∀ a : Int, k.represents a →
        cdiv k a 0 = .error ("division by zero: " ++ toString a ++ " / " ++ "0")) ∧
      (k.signed = true →
        cdiv k k.minVal (-1) =
          .error ("overflow: " ++ toString k.minVal ++ " / " ++ "-1")) ∧
      (∀ a b : Int, ∀ m : String, cdiv k a b = .error m →
        (b = 0 → m = "division by zero: " ++ toString a ++ " / " ++ toString b) ∧
        (b ≠ 0 → m = "overflow: " ++ toString a ++ " / " ++ toString b)) ∧
      (∀ a b : Int,
        ("division by zero: " ++ toString a ++ " / " ++ toString b) ≠
          ("overflow: " ++ toString a ++ " / " ++ toString b)) := by
  intro k _hk
  refine ⟨fun a _ha => ?_, fun hs => ?_, fun a b m hm => ?_, fun a b => ?_⟩
  · have h1 : checked_div k a 0 = none := by simp [checked_div]
    simp only [cdiv, h1, ok_or_else]
    rfl
  · have h1 : checked_div k k.minVal (-1) = none := by simp [checked_div, hs]
    simp only [cdiv, h1, ok_or_else]
    rfl
  · have hmsg : m = cdivErr a b := by
      cases hcd : checked_div k a b with
      | some v =>
        simp only [cdiv, hcd, ok_or_else] at hm
        exact Except.noConfusion hm
      | none =>
        simp only [cdiv, hcd, ok_or_else] at hm
        exact (Except.error.inj hm).symm
    constructor
    · intro hb0
      subst hb0
      rw [hmsg]
      rfl
    · intro hb0
      rw [hmsg]
      simp only [cdivErr, if_neg hb0]
  · intro h
    have h2 := congrArg String.length h
    simp only [String.length_append] at h2
    have e1 : ("division by zero: ").length = 18 := rfl
    have e2 : ("overflow: ").length = 10 := rfl
    omega

/-- Witness for C4 at `cdiv(7i8, 0)` and `cdiv(i8::MIN, -1)`. -/
theorem cdiv_message_classification_witness :
    cdiv i8 7 0 = .error ("division by zero: " ++ toString (7 : Int) ++ " / " ++ "0") ∧
    cdiv i8 i8.minVal (-1) =
      .error ("overflow: " ++ toString i8.minVal ++ " / " ++ "-1") :=
  ⟨(cdiv_message_classification i8 (by decide)).1 7 (by decide),
   (cdiv_message_classification i8 (by decide)).2.1 rfl⟩

/-- Every unsigned kind in the list is in fact unsigned. -/
theorem unsignedKinds_signed_false : ∀ k ∈ unsignedKinds, k.signed = false := by
  decide

/-- Claim C10: on unsigned kinds, `cdiv` and `crem` fail exactly when the
divisor is zero, and the resulting message is always the division-by-zero
form: the overflow branch of the division-family classifier is unreachable. -/
theorem unsigned_div_rem_error_iff_zero :
    ∀ k ∈ unsignedKinds, ∀ a b : Int, k.represents a → k.represents b →
      ((∃ m, cdiv k a b = .error m) ↔ b = 0) ∧
      ((∃ m, crem k a b = .error m) ↔ b = 0) ∧
      (∀ m, cdiv k a b = .error m →
        m = "division by zero: " ++ toString a ++ " / " ++ toString b) ∧
      (∀ m, crem k a b = .error m →
        m = "division by zero: " ++ toString a ++ " % " ++ toString b) := by
  intro k hk a b _ha _hb
  have hs : k.signed = false := unsignedKinds_signed_false k hk
  by_cases hb0 : b = 0
  · subst hb0
    have hd : checked_div k a 0 = none := by simp [checked_div]
    have hr : checked_rem k a 0 = none := by simp [checked_rem]
    refine ⟨⟨fun _ => rfl, fun _ => ⟨cdivErr a 0, by simp only [cdiv, hd, ok_or_else]⟩⟩,
      ⟨fun _ => rfl, fun _ => ⟨cremErr a 0, by simp only [crem, hr, ok_or_else]⟩⟩,
      fun m hm => ?_, fun m hm => ?_⟩
    · simp only [cdiv, hd, ok_or_else] at hm
      rw [(Except.error.inj hm).symm]
      rfl
    · simp only [crem, hr, ok_or_else] at hm
      rw [(Except.error.inj hm).symm]
      rfl
  · have hd : checked_div k a b = some (Int.tdiv a b) := by
      simp [checked_div, hb0, hs]
    have hr : checked_rem k a b = some (Int.tmod a b) := by
      simp [checked_rem, hb0, hs]
    refine ⟨⟨fun hex => ?_, fun hc => absurd hc hb0⟩,
      ⟨fun hex => ?_, fun hc => absurd hc hb0⟩, fun m hm => ?_, fun m hm => ?_⟩
    · obtain ⟨m, hm⟩ := hex
      simp only [cdiv, hd, ok_or_else] at hm
      exact Except.noConfusion hm
    · obtain ⟨m, hm⟩ := hex
      simp only [crem, hr, ok_or_else] at hm
      exact Except.noConfusion hm
    · simp only [cdiv, hd, ok_or_else] at hm
      exact Except.noConfusion hm
    · simp only [crem, hr, ok_or_else] at hm
      exact Except.noConfusion hm

/-- Witness for C10 at `u8`, operands `(6, 0)`. -/
theorem unsigned_div_rem_error_iff_zero_witness :
    ((∃ m, cdiv u8 6 0 = .error m) ↔ (0 : Int) = 0) ∧
    ((∃ m, crem u8 6 0 = .error m) ↔ (0 : Int) = 0) ∧
    (∀ m, cdiv u8 6 0 = .error m →
      m = "division by zero: " ++ toString (6 : Int) ++ " / " ++ toString (0 : Int)) ∧
    (∀ m, crem u8 6 0 = .error m →
      m = "division by zero: " ++ toString (6 : Int) ++ " % " ++ toString (0 : Int)) :=
  unsigned_div_rem_error_iff_zero u8 (by decide) 6 0 (by decide) (by decide)

/-! ## Non-zero conversion (src/convert.rs) -/

/-- `NonZero::new`: `Some` iff the value is non-zero; the wrapped non-zero
value is modelled by its underlying integer. -/
def nonZeroNew (v : Int) : Option Int :=
  if v = 0 then none else some v

/-- `ToNonZero::to_non_zero` from `impl_to_non_zero` (src/convert.rs):
`NonZero::new(self).ok_or_else(|| Error::new("unexpected zero value".into()))`. -/
def to_non_zero (v : Int) : Except String Int :=
  ok_or_else (nonZeroNew v) "unexpected zero value"

/-- Claim C7: `to_non_zero(0)` fails with exactly `unexpected zero value`;
for every non-zero value it succeeds, and the result viewed in the base
integer kind equals the input. -/
theorem to_non_zero_spec :
    to_non_zero 0 = .error "unexpected zero value" ∧
    ∀ v : Int, v ≠ 0 → to_non_zero v = .ok v := by
  refine ⟨rfl, fun v hv => ?_⟩
  simp [to_non_zero, nonZeroNew, hv, ok_or_else]

/-- Witness for C7 at value 5. -/
theorem to_non_zero_spec_witness : to_non_zero 5 = .ok 5 :=
  to_non_zero_spec.2 5 (by decide)

/-! ## Slice to fixed-length array (src/convert_impls/array.rs) -/

/-- Rust `Formatter::debug_list` rendering of a list of already-rendered
entries. -/
def debugListEntries (entries : List String) : String :=
  "[" ++ String.intercalate ", " entries ++ "]"

/-- `SliceLimitedDebug` (src/convert_impls/array.rs): slices of at most
`MAX_ITEMS = 32` elements render like the std slice `Debug`; longer slices
render the first 16 entries, a quoted `"..."` entry, and the last 16
entries. -/
def SliceLimitedDebug {α : Type} (dbg : α → String) (xs : List α) : String :=
  let MAX_ITEMS := 32
  if MAX_ITEMS < xs.length then
    debugListEntries ((xs.take (MAX_ITEMS / 2)).map dbg ++ ["\"...\""] ++
      ((xs.drop (xs.length - MAX_ITEMS / 2)).map dbg))
  else
    debugListEntries (xs.map dbg)

/-- `slice_to_array_error` (src/convert_impls/array.rs). -/
def slice_to_array_error {α : Type} (dbg : α → String) (target_len : Nat)
    (value : List α) : String :=
  "expected slice of length " ++ toString target_len ++ ", got length " ++
    toString value.length ++ ": " ++ SliceLimitedDebug dbg value

/-- `Cfrom<&[T]> for [T; N]` (src/convert_impls/array.rs):
`from.try_into().map_err(|_| slice_to_array_error(N, from))`; the std
slice-to-array `try_into` succeeds exactly when the length is `n`,
preserving the elements in order. -/
def cfrom_slice_to_array {α : Type} (dbg : α → String) (n : Nat)
    (xs : List α) : Except String (List α) :=
  if xs.length = n then .ok xs else .error (slice_to_array_error dbg n xs)

/-- Claim C8: slice-to-array conversion fails exactly on length mismatch,
with a message that reports the required length, the actual length, and a
preview of the contents, eliding slices longer than 32 elements to the first
16 and last 16 entries around a `"..."` marker; on length match it succeeds
preserving order and values. -/
theorem slice_to_array_spec :
    (∀ (n : Nat) (xs : List Int), xs.length = n →
      cfrom_slice_to_array toString n xs = .ok xs) ∧
    (∀ (n : Nat) (xs : List Int), xs.length ≠ n →
      cfrom_slice_to_array toString n xs =
        .error ("expected slice of length " ++ toString n ++ ", got length " ++
          toString xs.length ++ ": " ++ SliceLimitedDebug toString xs)) ∧
    cfrom_slice_to_array toString 3 [(1 : Int), 2, 3, 4, 5] =
      .error "expected slice of length 3, got length 5: [1, 2, 3, 4, 5]" ∧
    cfrom_slice_to_array toString 3 [(1 : Int), 2, 3] = .ok [1, 2, 3] ∧
    (∀ xs : List Int, 32 < xs.length →
      SliceLimitedDebug toString xs =
        debugListEntries ((xs.take 16).map toString ++ ["\"...\""] ++
          ((xs.drop (xs.length - 16)).map toString))) ∧
    (∀ xs : List Int, xs.length ≤ 32 →
      SliceLimitedDebug toString xs = debugListEntries (xs.map toString)) ∧
    SliceLimitedDebug toString ((List.range 33).map Int.ofNat) =
      "[0, 1, 2, 3, 4, 5, 6, 7, 8, 9, 10, 11, 12, 13, 14, 15, \"...\", 17, 18, 19, 20, 21, 22, 23, 24, 25, 26, 27, 28, 29, 30, 31, 32]" := by
  refine ⟨fun n xs h => ?_, fun n xs h => ?_, ?_, ?_, fun xs h => ?_, fun xs h => ?_, ?_⟩
  · simp only [cfrom_slice_to_array, if_pos h]
  · simp only [cfrom_slice_to_array, if_neg h, slice_to_array_error]
  · rfl
  · rfl
  · simp only [SliceLimitedDebug]
    rw [if_pos h]
  · simp only [SliceLimitedDebug]
    rw [if_neg (by omega)]
  · rfl

/-- Witness for C8 at a length-2 slice converted to length 2. -/
theorem slice_to_array_spec_witness :
    cfrom_slice_to_array toString 2 [(7 : Int), 8] = .ok [7, 8] :=
  slice_to_array_spec.1 2 [7, 8] rfl

/-! ## Backtrace environment flag (src/tests.rs) -/

/-- `backtrace_enabled` (src/tests.rs) as a pure function of the two
environment variables: `RUST_LIB_BACKTRACE` (primary) is consulted first, and
only if it is absent is `RUST_BACKTRACE` (fallback) consulted; an absent
variable is `none`. -/
def backtrace_enabled (lib : Option String) (fallback : Option String) : Bool :=
  match lib with
  | some s => s != "0"
  | none =>
    match fallback with
    | some s => s != "0"
    | none => false

/-- Claim C9 counterexample: with the primary toggle set to `"0"` and the
fallback set to `"1"` (a non-`"0"` value), capture stays disabled. This
refutes "enables capture whenever either toggle is set to a non-\"0\"
value": the primary's `"0"` overrides the fallback entirely. -/
theorem backtrace_enabled_cex :
    "1" ≠ "0" ∧ backtrace_enabled (some "0") (some "1") = false := by decide

/-- Claim C9 (amended): the primary toggle, when set, alone decides (its
value being non-`"0"` enables capture, regardless of the fallback); the
fallback is consulted only when the primary is absent; absence of both
disables capture. -/
theorem backtrace_enabled_spec :
    (∀ (s : String) (f : Option String),
      (backtrace_enabled (some s) f = true ↔ s ≠ "0")) ∧
    (∀ s : String, (backtrace_enabled none (some s) = true ↔ s ≠ "0")) ∧
    backtrace_enabled none none = false := by
  refine ⟨fun s f => ?_, fun s => ?_, rfl⟩
  · simp [backtrace_enabled]
  · simp [backtrace_enabled]

end Cadd
